import Mathlib

/-!
Verification development for the TestRunSummary repository.

The Python sources are shallowly embedded:
* `app.py`'s `detect_summary_request` via a small backtracking regular-expression
  engine (`RE`, `matchRE`, `reSearch`) whose patterns transcribe the Python
  pattern strings one for one;
* `services.py`'s `FluxQueryService.execute_flux_query` and
  `OpenAIQueryGenerationService.generate_flux_query_only` /
  `generate_query_with_summary` with the external collaborators (OpenAI client,
  InfluxDB client) abstracted as environment records of functions;
* `summary_service.py`'s `FailureCategoryAnalyzer.categorize_failure` and the
  execution-order normalization and control flow of
  `SummaryService.generate_build_comparison_summary`;
* the display-time pandas deduplication block of `app.py` over rows modelled as
  association lists.
-/

namespace TestRunSummary

/-! ## Character classes and small string utilities -/

/-- Python `\s` (the whitespace characters this code can meet). -/
def wsC (c : Char) : Bool :=
  c = ' ' || c = '\t' || c = '\n' || c = '\r' || c = '\x0b' || c = '\x0c'

/-- Python `\d` on the ASCII digits. -/
def digitC (c : Char) : Bool := c.isDigit

/-- `[A-Za-z]`. -/
def alphaC (c : Char) : Bool := c.isAlpha

/-- `[A-Za-z0-9_]`. -/
def wordC (c : Char) : Bool := c.isAlpha || c.isDigit || c = '_'

/-- Python `\S`. -/
def nonWsC (c : Char) : Bool := !wsC c

/-- Python `str.lower()` on a character list (ASCII case folding). -/
def lowerL (s : List Char) : List Char := s.map Char.toLower

/-- Leading whitespace removed (half of Python `str.strip()`). -/
def dropLeadWs (s : List Char) : List Char := s.dropWhile wsC

/-- Trailing whitespace removed (the other half of `str.strip()`). -/
def dropTrailWs : List Char → List Char
  | [] => []
  | c :: rest =>
    let r := dropTrailWs rest
    if r.isEmpty && wsC c then [] else c :: r

/-- Python `str.strip()`. -/
def pyStrip (s : List Char) : List Char := dropTrailWs (dropLeadWs s)

/-- Lexicographic code-point comparison, Python `str.__lt__`. -/
def charListLtB : List Char → List Char → Bool
  | [], [] => false
  | [], _ :: _ => true
  | _ :: _, [] => false
  | a :: as, b :: bs =>
    if a < b then true else if b < a then false else charListLtB as bs

/-- Python `a > b` on strings. -/
def strGtB (a b : String) : Bool := charListLtB b.data a.data

/-- Does `pat` begin `s`? -/
def startsWithL : List Char → List Char → Bool
  | [], _ => true
  | _ :: _, [] => false
  | p :: ps, c :: cs => p = c && startsWithL ps cs

/-- Python `pat in s`: contiguous-substring containment. -/
def substrL (pat : List Char) : List Char → Bool
  | [] => pat.isEmpty
  | c :: rest => startsWithL pat (c :: rest) || substrL pat rest

/-- Replacement worker: at `skip = 0` look for a match (emitting `rep` and
then skipping the matched occurrence's remaining characters), a positive
`skip` swallows a character of the last match. -/
def replaceAllGo (pat rep : List Char) : List Char → Nat → List Char
  | [], _ => []
  | c :: rest, 0 =>
    if startsWithL pat (c :: rest) && !pat.isEmpty then
      rep ++ replaceAllGo pat rep rest (pat.length - 1)
    else c :: replaceAllGo pat rep rest 0
  | _ :: rest, skip + 1 => replaceAllGo pat rep rest skip

/-- Python `s.replace(pat, rep)` for a non-empty `pat`: every non-overlapping
occurrence, left to right. -/
def replaceAllL (pat rep s : List Char) : List Char := replaceAllGo pat rep s 0

/-- Python `s.startswith(pat)`. -/
def pyStartsWith (pat s : String) : Bool := startsWithL pat.data s.data

/-- Python `s.split("\n")`. -/
def splitOnNL : List Char → List (List Char)
  | [] => [[]]
  | c :: rest =>
    if c = '\n' then [] :: splitOnNL rest
    else
      match splitOnNL rest with
      | h :: t => (c :: h) :: t
      | [] => [[c]]

/-- Decimal value of a digit list (`int()` on the digits). -/
def digitsToNat (l : List Char) : Nat :=
  l.foldl (fun acc c => acc * 10 + (c.toNat - 48)) 0

/-- Python `int(s)` on the string shapes that reach this code: surrounding
whitespace, an optional single sign, then decimal ASCII digits (underscore
separators and non-ASCII digits are not modelled). `none` models the
`ValueError`. -/
def pyIntParse (s : String) : Option Int :=
  let l := pyStrip s.data
  let (neg, rest) :=
    match l with
    | '+' :: r => (false, r)
    | '-' :: r => (true, r)
    | r => (false, r)
  if rest ≠ [] ∧ rest.all digitC then
    some (if neg then -(digitsToNat rest : Int) else (digitsToNat rest : Int))
  else none

/-! ## A small regular-expression engine

`detect_summary_request` works through `re.search`.  The engine below gives
Python's semantics for the fragment those patterns use: literals, character
classes, concatenation, leftmost-biased alternation, greedy `?`/`*`/`+` over
character classes, and capturing groups, searched at the leftmost possible
start position. -/

/-- Patterns: `starCls` is a greedy `*` over a character class (every `*`/`+`
in the Python patterns ranges over a single class). -/
inductive RE where
  | eps
  | cls (p : Char → Bool)
  | seq (a b : RE)
  | alt (a b : RE)
  | starCls (p : Char → Bool)
  | grp (a : RE)

/-- Greedy Kleene star over a class, continuation style: consume more first,
backtrack by handing shorter suffixes to the continuation. -/
def matchStar {α} (p : Char → Bool) (k : List Char → List (List Char) → Option α) :
    List Char → List (List Char) → Option α
  | [], caps => k [] caps
  | c :: rest, caps =>
    if p c then
      (matchStar p k rest caps).orElse (fun _ => k (c :: rest) caps)
    else k (c :: rest) caps

/-- Backtracking matcher.  `k` receives the unconsumed suffix and the captures
closed so far; a `grp` closes by recording the consumed prefix. -/
def matchRE {α} : RE → List Char → (List Char → List (List Char) → Option α) →
    List (List Char) → Option α
  | .eps, s, k, caps => k s caps
  | .cls p, s, k, caps =>
    match s with
    | [] => none
    | c :: rest => if p c then k rest caps else none
  | .seq a b, s, k, caps => matchRE a s (fun rest caps2 => matchRE b rest k caps2) caps
  | .alt a b, s, k, caps => (matchRE a s k caps).orElse (fun _ => matchRE b s k caps)
  | .starCls p, s, k, caps => matchStar p k s caps
  | .grp a, s, k, caps =>
    matchRE a s (fun rest caps2 => k rest (caps2 ++ [s.take (s.length - rest.length)])) caps

/-- A successful search: start and end offsets and the captures, as Python's
match object exposes them. -/
structure Hit where
  start : Nat
  stop : Nat
  caps : List (List Char)
deriving DecidableEq, Repr

/-- The whole-pattern match attempt anchored at offset `pos` of the original
text, `s` being the text's suffix there. -/
def searchHitAt (re : RE) (pos : Nat) (s : List Char) : Option Hit :=
  matchRE re s (fun rest caps => some ⟨pos, pos + (s.length - rest.length), caps⟩) []

/-- Try a match at the current position, else advance one character
(`re.search` scans for the leftmost start). -/
def searchFrom (re : RE) : Nat → List Char → Option Hit
  | pos, [] => searchHitAt re pos []
  | pos, c :: t =>
    match searchHitAt re pos (c :: t) with
    | some h => some h
    | Option.none => searchFrom re (pos + 1) t

/-- Python `re.search(pattern, s)`. -/
def reSearch (re : RE) (s : List Char) : Option Hit := searchFrom re 0 s

/-- A literal character. -/
def lit (c : Char) : RE := .cls (fun x => x = c)

/-- A literal character under `re.IGNORECASE`. -/
def ilit (c : Char) : RE := .cls (fun x => x.toLower = c.toLower)

/-- A literal word. -/
def rstr (s : String) : RE := (s.data.map lit).foldr .seq .eps

/-- A literal word under `re.IGNORECASE`. -/
def ristr (s : String) : RE := (s.data.map ilit).foldr .seq .eps

/-- Concatenation of a pattern list. -/
def rcat (l : List RE) : RE := l.foldr .seq .eps

/-- Greedy `(?:...)?`. -/
def ropt (a : RE) : RE := .alt a .eps

/-- `\s+`. -/
def wsP : RE := .seq (.cls wsC) (.starCls wsC)

/-- `\s*`. -/
def wsS : RE := .starCls wsC

/-- `(\d+)`. -/
def digitsG : RE := .grp (.seq (.cls digitC) (.starCls digitC))

/-- `([A-Za-z][A-Za-z0-9_]*)`. -/
def identG : RE := .grp (.seq (.cls alphaC) (.starCls wordC))

/-- `(\S+)`. -/
def nonwsG : RE := .grp (.seq (.cls nonWsC) (.starCls nonWsC))

/-! ## `app.py`: `detect_summary_request`

The classifier's parameter slot: Python returns `None`, a string, an int or a
pair of strings in the second tuple component. -/

inductive SParam where
  | none
  | str (s : String)
  | num (n : Nat)
  | pair (a b : String)
deriving DecidableEq, Repr

/-- The classifier's outcome `(summary_type, parameter)`. -/
abbrev DetectOutcome := Option String × SParam

/-- `build_summary_patterns` (app.py lines 82–97), in order. -/
def build_summary_patterns : List RE :=
  [ rcat [ropt (rcat [rstr "give", wsP, rstr "me", wsP]), rstr "about", wsP, rstr "build", wsP, digitsG]
  , rcat [ropt (rcat [rstr "give", wsP, rstr "me", wsP]), rstr "about", wsP, rstr "execution", wsP, digitsG]
  , rcat [ropt (rcat [rstr "tell", wsP, rstr "me", wsP]), rstr "about", wsP, rstr "build", wsP, digitsG]
  , rcat [ropt (rcat [rstr "tell", wsP, rstr "me", wsP]), rstr "about", wsP, rstr "execution", wsP, digitsG]
  , rcat [rstr "build", wsP, rstr "summary"]
  , rcat [rstr "summary", wsP, rstr "of", wsP, rstr "build"]
  , rcat [rstr "build", wsP, digitsG, wsP, rstr "summary"]
  , rcat [rstr "execution", wsP, digitsG, wsP, rstr "summary"]
  , rcat [rstr "latest", wsP, rstr "build", wsP, rstr "summary"]
  , rcat [rstr "current", wsP, rstr "build", wsP, rstr "summary"]
  , rcat [rstr "show", wsP, rstr "me", wsP, rstr "build", wsP, digitsG]
  , rcat [rstr "show", wsP, rstr "me", wsP, rstr "execution", wsP, digitsG]
  , rcat [rstr "info", wsP, rstr "about", wsP, rstr "build", wsP, digitsG]
  , rcat [rstr "info", wsP, rstr "about", wsP, rstr "execution", wsP, digitsG] ]

/-- The fallback `(?:build|execution)\s+(\d+)` used when a groupless build
pattern matched (app.py line 105). -/
def buildNumFallback : RE :=
  rcat [.alt (rstr "build") (rstr "execution"), wsP, digitsG]

/-- The build-summary block (app.py lines 81–107): first matching pattern wins;
a pattern with a group yields its capture, a groupless one falls back to a
`(?:build|execution)\s+(\d+)` search over the whole lowered query. -/
def stageBuild (ql : List Char) : Option DetectOutcome :=
  (build_summary_patterns.firstM (fun re => reSearch re ql)).map (fun h =>
    match h.caps.head? with
    | some cap => (some "build_summary", SParam.str (String.mk cap))
    | none =>
      match (reSearch buildNumFallback ql).bind (fun h2 => h2.caps.head?) with
      | some cap => (some "build_summary", SParam.str (String.mk cap))
      | none => (some "build_summary", SParam.none))

/-- `script_patterns` (app.py lines 111–119), in order. -/
def script_patterns : List RE :=
  [ rcat [rstr "about", wsP, .alt (rstr "script") (rstr "test"), wsP, identG]
  , rcat [rstr "summary", wsP, rstr "of", wsP, .alt (rstr "script") (rstr "test"), wsP, identG]
  , rcat [rstr "analyze", wsP, .alt (rstr "script") (rstr "test"), wsP, identG]
  , rcat [rstr "tell", wsP, rstr "me", wsP, rstr "about", wsP, identG]
  , rcat [rstr "give", wsP, rstr "me", wsP, rstr "about", wsP, identG]
  , rcat [rstr "what", wsP, rstr "about", wsP, identG]
  , rcat [rstr "explain", wsP, identG] ]

/-- The explicit-keyword script block (app.py lines 120–124): the extracted
name is `match.group(1)` of the search over the LOWERCASED query. -/
def stageScript (ql : List Char) : Option DetectOutcome :=
  (script_patterns.firstM (fun re => reSearch re ql)).map (fun h =>
    (some "script_summary", SParam.str (String.mk (h.caps.headD []))))

/-- `(?:give\s+me\s+)?summary\s+about\s+(\S+)` (app.py line 128). -/
def summaryAboutPat : RE :=
  rcat [ropt (rcat [rstr "give", wsP, rstr "me", wsP]), rstr "summary", wsP, rstr "about", wsP, nonwsG]

/-- The same pattern with `re.IGNORECASE`, as searched over the original query
(app.py line 132). -/
def summaryAboutPatI : RE :=
  rcat [ropt (rcat [ristr "give", wsP, ristr "me", wsP]), ristr "summary", wsP, ristr "about", wsP, nonwsG]

/-- The re-extraction of the script name from the ORIGINAL query in the
"summary about X" branch (app.py lines 132–134): `group(1).strip()`. -/
def summaryAboutFromOriginal (q : List Char) : Option (List Char) :=
  (reSearch summaryAboutPatI q).map (fun h => pyStrip (h.caps.headD []))

/-- The "summary about X" block (app.py lines 126–137): match on the lowered
query, then re-extract from the original to preserve case, falling back to the
lowered capture if the original search fails. -/
def stageSummaryAbout (q ql : List Char) : Option DetectOutcome :=
  match reSearch summaryAboutPat ql with
  | Option.none => Option.none
  | some h =>
    match summaryAboutFromOriginal q with
    | some cap => some (some "script_summary", SParam.str (String.mk cap))
    | Option.none =>
      some (some "script_summary", SParam.str (String.mk (pyStrip (h.caps.headD []))))

/-- `about\s+([A-Za-z][A-Za-z0-9_]*)` with `re.IGNORECASE` (app.py lines 141
and 148). -/
def aboutIdentPatI : RE := rcat [ristr "about", wsP, identG]

/-- `about\s+(?:script|test|build|execution)` (app.py line 142). -/
def aboutKeywordPat : RE :=
  rcat [rstr "about", wsP,
        .alt (rstr "script") (.alt (rstr "test") (.alt (rstr "build") (rstr "execution")))]

/-- The residual keyword-less "about X" block (app.py lines 139–151): skip when
an `about script/test/build/execution` phrase is present or the text after the
match (stripped) starts with a digit; otherwise re-extract from the original
query.  When the original-query search fails Python falls through, so the stage
yields nothing. -/
def stageAboutResidual (q ql : List Char) : Option DetectOutcome :=
  match reSearch aboutIdentPatI ql with
  | Option.none => Option.none
  | some h =>
    if (reSearch aboutKeywordPat ql).isSome then Option.none
    else
      let after_about := pyStrip (ql.drop h.stop)
      if (match after_about with | c :: _ => digitC c | [] => false) then Option.none
      else
        match reSearch aboutIdentPatI q with
        | some h2 => some (some "script_summary", SParam.str (String.mk (h2.caps.headD [])))
        | Option.none => Option.none

/-- `top\s+(\d+)` (app.py lines 156 and 163). -/
def topNumPat : RE := rcat [rstr "top", wsP, digitsG]

/-- The "top N flaky" block (app.py lines 154–158): substring containment of
`top` and `flaky`, optional captured limit, default 10. -/
def stageTopFlaky (ql : List Char) : Option DetectOutcome :=
  if substrL "top".data ql && substrL "flaky".data ql then
    let limit :=
      match (reSearch topNumPat ql).bind (fun h => h.caps.head?) with
      | some cap => digitsToNat cap
      | Option.none => 10
    some (some "top_flaky", SParam.num limit)
  else Option.none

/-- The "top N failing" block (app.py lines 161–165). -/
def stageTopFailing (ql : List Char) : Option DetectOutcome :=
  if substrL "top".data ql && substrL "failing".data ql then
    let limit :=
      match (reSearch topNumPat ql).bind (fun h => h.caps.head?) with
      | some cap => digitsToNat cap
      | Option.none => 10
    some (some "top_failing", SParam.num limit)
  else Option.none

/-- `flaky_patterns` (app.py lines 168–173). -/
def flaky_patterns : List RE :=
  [ rcat [rstr "flaky", wsP, rstr "script", ropt (lit 's'), wsP, rstr "summary"]
  , rcat [rstr "summary", wsP, rstr "of", wsP, rstr "flaky", wsP, rstr "script", ropt (lit 's')]
  , rcat [rstr "flaky", wsP, rstr "test", ropt (lit 's'), wsP, rstr "summary"]
  , rcat [rstr "unstable", wsP, rstr "script", ropt (lit 's'), wsP, rstr "summary"] ]

/-- The flaky-summary block (app.py lines 167–176). -/
def stageFlaky (ql : List Char) : Option DetectOutcome :=
  (flaky_patterns.firstM (fun re => reSearch re ql)).map (fun _ =>
    (some "flaky_summary", SParam.none))

/-- `(?:and|vs|with)`. -/
def andVsWith : RE := .alt (rstr "and") (.alt (rstr "vs") (rstr "with"))

/-- `comparison_patterns` (app.py lines 179–199), in order. -/
def comparison_patterns : List RE :=
  [ rcat [rstr "compare", wsP, rstr "build", ropt (lit 's'), wsP, digitsG, wsP, andVsWith, wsP, digitsG]
  , rcat [rstr "compare", wsP, rstr "build", ropt (lit 's'), wsP, digitsG, wsS, lit ',', wsS, digitsG]
  , rcat [rstr "compare", wsP, rstr "execution", ropt (lit 's'), wsP, digitsG, wsP, andVsWith, wsP, digitsG]
  , rcat [rstr "compare", wsP, rstr "execution", ropt (lit 's'), wsP, digitsG, wsS, lit ',', wsS, digitsG]
  , rcat [rstr "build", ropt (lit 's'), wsP, digitsG, wsP, andVsWith, wsP, rstr "build", ropt (lit 's'), wsP, digitsG]
  , rcat [rstr "execution", ropt (lit 's'), wsP, digitsG, wsP, andVsWith, wsP, rstr "execution", ropt (lit 's'), wsP, digitsG]
  , rcat [rstr "compare", wsP, rstr "build", wsP, digitsG, wsP, rstr "vs", wsP, digitsG]
  , rcat [rstr "compare", wsP, rstr "execution", wsP, digitsG, wsP, rstr "vs", wsP, digitsG]
  , rcat [rstr "build", wsP, digitsG, wsP, rstr "vs", wsP, rstr "build", wsP, digitsG]
  , rcat [rstr "execution", wsP, digitsG, wsP, rstr "vs", wsP, rstr "execution", wsP, digitsG]
  , rcat [rstr "compare", wsP, rstr "build"]
  , rcat [rstr "compare", wsP, rstr "execution"]
  , rcat [rstr "compare", wsP, rstr "build", ropt (lit 's')]
  , rcat [rstr "build", wsP, rstr "comparison"]
  , rcat [rstr "compare", wsP, rstr "yesterday", wsP, rstr "vs", wsP, rstr "today"]
  , rcat [rstr "yesterday", wsP, rstr "vs", wsP, rstr "today"]
  , rcat [rstr "compare", wsP, rstr "previous", wsP, rstr "vs", wsP, rstr "current"]
  , rcat [rstr "previous", wsP, rstr "build", wsP, rstr "vs", wsP, rstr "current"]
  , rcat [rstr "last", wsP, rstr "build", wsP, rstr "vs", wsP, rstr "current"] ]

/-- The build-comparison block (app.py lines 178–208): two captures give an
ordered pair in text order, otherwise the comparison is parameterless. -/
def stageComparison (ql : List Char) : Option DetectOutcome :=
  (comparison_patterns.firstM (fun re => reSearch re ql)).map (fun h =>
    match h.caps with
    | [a, b] => (some "build_comparison", SParam.pair (String.mk a) (String.mk b))
    | _ => (some "build_comparison", SParam.none))

/-- `detect_summary_request` (app.py lines 73–210): the ordered cascade of
rule blocks over the lowercased copy (the original is consulted only by the
two re-extraction branches); an unmatched input yields `(None, None)`. -/
def detect_summary_request (query : String) : DetectOutcome :=
  let q := query.data
  let ql := lowerL q
  (((((((stageBuild ql).orElse (fun _ => stageScript ql)).orElse
    (fun _ => stageSummaryAbout q ql)).orElse
    (fun _ => stageAboutResidual q ql)).orElse
    (fun _ => (stageTopFlaky ql).orElse (fun _ => stageTopFailing ql))).orElse
    (fun _ => stageFlaky ql)).orElse
    (fun _ => stageComparison ql)).getD (Option.none, SParam.none)

/-- `true` when none of the classifier's rule blocks fires on `query`. -/
def noSummaryRuleMatches (query : String) : Bool :=
  let q := query.data
  let ql := lowerL q
  (stageBuild ql).isNone && (stageScript ql).isNone &&
  (stageSummaryAbout q ql).isNone && (stageAboutResidual q ql).isNone &&
  (stageTopFlaky ql).isNone && (stageTopFailing ql).isNone &&
  (stageFlaky ql).isNone && (stageComparison ql).isNone

/-! ## Rows and record values

A row returned by the record store is a field map; the values this code
manipulates are strings and (for durations, counts and the like) numbers,
modelled as integers. -/

inductive Val where
  | i (n : Int)
  | s (str : String)
deriving DecidableEq, Repr

/-- A record-store row: a field map with unique keys. -/
abbrev Row := List (String × Val)

/-- `row.get(key)`. -/
def getVal (r : Row) (k : String) : Option Val :=
  (r.find? (fun p => decide (p.1 = k))).map (·.2)

/-- Python truthiness of a field value. -/
def valTruthy : Val → Bool
  | .i n => n ≠ 0
  | .s str => !str.data.isEmpty

/-- Python `str()` of a field value. -/
def valToStr : Val → String
  | .i n => toString n
  | .s str => str

/-- The value as a Python `str`, `none` for a non-string. -/
def valAsStr : Val → Option String
  | .s str => some str
  | _ => Option.none

/-- Python `a or b or ...` over `dict.get` results: the first truthy value. -/
def firstTruthy (l : List (Option Val)) : Option Val :=
  match l.find? (fun o => o.elim false valTruthy) with
  | some o => o
  | Option.none => Option.none

/-- Python `f"{o}"` for an optional string: `None` renders as `"None"`. -/
def pyShow : Option String → String
  | Option.none => "None"
  | some s => s

/-! ## `summary_service.py`: `FailureCategoryAnalyzer` -/

/-- `FAILURE_PATTERNS` (summary_service.py lines 17–42): category name,
keyword list, description, in dict insertion order. -/
def FAILURE_PATTERNS : List (String × List String × String) :=
  [ ("toast", [".toast", "toast", "Toast"], "Toast notification issues")
  , ("visibility",
     ["By.cssSelector", "waiting for visibility", "visibility", "element not visible",
      "ElementNotVisibleException"], "Element visibility issues")
  , ("timeout", ["timeout", "TimeoutException", "waiting", "timed out"], "Timeout issues")
  , ("element_not_found",
     ["NoSuchElementException", "element not found", "could not find"],
     "Element not found issues")
  , ("assertion", ["AssertionError", "assert", "expected", "actual"], "Assertion failures")
  , ("network", ["network", "connection", "HttpException", "500", "404"], "Network/API issues") ]

/-- Does some keyword of the entry occur, case-insensitively, in the lowered
stack `sl`?  (The Python inner loop appends the category on the first keyword
hit and breaks.) -/
def anyKeywordHits (kws : List String) (sl : List Char) : Bool :=
  kws.any (fun kw => substrL (lowerL kw.data) sl)

/-- `categorize_failure` (summary_service.py lines 44–67).  The argument is
`none` when the Python value is `None` or not a string. -/
def categorize_failure (failure_stack : Option String) : List String :=
  match failure_stack with
  | Option.none => ["unknown"]
  | some stack =>
    if stack.data.isEmpty then ["unknown"]
    else
      let sl := lowerL stack.data
      let categories := FAILURE_PATTERNS.filterMap (fun p =>
        if anyKeywordHits p.2.1 sl then some p.1 else Option.none)
      if categories.isEmpty then ["unknown"] else categories

/-! ## `services.py`: `FluxQueryService.execute_flux_query` -/

/-- The external InfluxDB collaborator and the configuration it is used with:
`clientAvailable` is whether `ClientFactory.get_influx_client()` produced a
client (its own `try/except` returns `None` instead of raising), `runQuery` is
`query_api.query` returning tables of records or raising (`.error`). -/
structure InfluxEnv where
  clientAvailable : Bool
  runQuery : String → Except String (List (List Row))
  default_execution_number : String

/-- The metadata columns stripped from each record (services.py line 49). -/
def excluded_columns : List String := ["result", "table", "_start", "_stop"]

/-- Drop the store-internal metadata fields of one record. -/
def stripMeta (r : Row) : Row := r.filter (fun p => !(excluded_columns.contains p.1))

/-- The result dictionary of `execute_flux_query`. -/
structure FluxResult where
  success : Bool
  data : Option (List Row)
  error : Option String
  row_count : Nat
deriving DecidableEq, Repr

/-- The `except` block's message massaging (services.py lines 64–71): when the
text mentions a runtime error, keep only the first such line, stripped. -/
def massageError (e : String) : String :=
  if substrL "runtime error".data (lowerL e.data) then
    match (splitOnNL e.data).find? (fun line => substrL "runtime error".data (lowerL line)) with
    | some line => String.mk (pyStrip line)
    | Option.none => e
  else e

/-- `FluxQueryService.execute_flux_query` (services.py lines 18–78): every
outcome, exceptions included, becomes a structured result dictionary. -/
def execute_flux_query (env : InfluxEnv) (query : String)
    (execution_number : Option String) : FluxResult :=
  let en := execution_number.getD env.default_execution_number
  if !env.clientAvailable then
    ⟨false, Option.none, some "InfluxDB client not initialized", 0⟩
  else
    let processed := String.mk (replaceAllL "${execution_number}".data en.data query.data)
    match env.runQuery processed with
    | .ok tables =>
      let results := (tables.map (fun t => t.map stripMeta)).flatten
      ⟨true, some results, Option.none, results.length⟩
    | .error e => ⟨false, Option.none, some (massageError e), 0⟩

/-! ## `services.py`: `OpenAIQueryGenerationService` -/

/-- A chat message `(role, content)`. -/
abbrev Msg := String × String

/-- The system prompt handed to the external generator (services.py lines
87–146).  Its text only travels to the collaborator, whose behaviour the
theorems quantify over, so the schema/rule lines after the opening sentence
are not repeated here. -/
def QUERY_ANALYSIS_PROMPT : String :=
  "You are an expert InfluxDB 2.x and Flux specialist. Generate syntactically correct Flux queries from natural language."

/-- The external generator and summariser plus configuration:
`chatCompletion` is the OpenAI call (client construction included), `.error`
modelling a raised exception; `summarize` is `generate_summary`
(services.py lines 332–429), which wraps the external summarising model and
always returns a string through its own `try/except`; `max_retries_cfg` is
`config.MAX_RETRIES`. -/
structure GenEnv where
  influx : InfluxEnv
  chatCompletion : List Msg → Except String String
  summarize : String → String → List Row → Nat → Option String → String
  max_retries_cfg : Nat

/-- The markdown cleanup of the generated content (services.py lines
267–268): strip, drop markdown fences, strip again. -/
def cleanQuery (content : String) : String :=
  String.mk (pyStrip (replaceAllL "```".data [] (replaceAllL "```flux".data [] (pyStrip content.data))))

/-- The corrective-feedback message appended after a failed execution
(services.py lines 290–305). -/
def error_feedback (err : Option String) (failed_query : String) : String :=
  "\nThe query failed with this error:\n" ++ pyShow err ++
  "\n\nFAILED QUERY:\n" ++ failed_query ++
  "\n\nAnalyze the error and generate a corrected query. Common fixes:\n1. Filter by _field BEFORE pivot/group (schema collision error)\n2. Check 'exists r.owner' before filtering by owner\n3. Status values must be uppercase: \"FAIL\", \"PASS\", \"SKIP\"\n4. Never mix numeric and string fields in group/pivot\n5. Group by correct columns before join\n\nGenerate the corrected query:\n"

/-- The result dictionary of `generate_flux_query_only`. -/
structure QueryGenResult where
  query : String
  success : Bool
  error : Option String
  attempts : Nat
deriving DecidableEq, Repr

/-- The initial conversation (services.py lines 253–256). -/
def initialMessages (user_query : String) : List Msg :=
  [("system", QUERY_ANALYSIS_PROMPT), ("user", user_query)]

/-- The retry loop of `generate_flux_query_only` (services.py lines 258–330),
with the remaining loop iterations as fuel: attempt numbers run 1, 2, …,
`max_retries`; falling out of the loop yields the "Max retries reached"
dictionary (lines 325–330). -/
def genLoop (env : GenEnv) (en : Option String) (max_retries : Nat) :
    Nat → Nat → List Msg → QueryGenResult
  | 0, _, _ => ⟨"", false, some "Max retries reached", max_retries⟩
  | fuel + 1, attempt, msgs =>
    match env.chatCompletion msgs with
    | .error e =>
      if attempt == max_retries then
        ⟨"", false, some ("Generation error: " ++ e), attempt⟩
      else genLoop env en max_retries fuel (attempt + 1) msgs
    | .ok content =>
      let flux_query := cleanQuery content
      if pyStartsWith "ERROR:" flux_query then
        ⟨flux_query, false, some flux_query, attempt⟩
      else
        let result := execute_flux_query env.influx flux_query en
        if result.success then ⟨flux_query, true, Option.none, attempt⟩
        else if attempt < max_retries then
          genLoop env en max_retries fuel (attempt + 1)
            (msgs ++ [("assistant", flux_query), ("user", error_feedback result.error flux_query)])
        else ⟨flux_query, false, result.error, attempt⟩

/-- `OpenAIQueryGenerationService.generate_flux_query_only` (services.py lines
230–330).  `execution_number`/`max_retries` are `None`-defaulted from the
configuration as in lines 248–251. -/
def generate_flux_query_only (env : GenEnv) (user_query : String)
    (execution_number : Option String) (max_retries : Option Nat) : QueryGenResult :=
  let en := execution_number.getD env.influx.default_execution_number
  let mr := max_retries.getD env.max_retries_cfg
  genLoop env (some en) mr mr 1 (initialMessages user_query)

/-- The result dictionary of `generate_query_with_summary`. -/
structure QuerySummaryResult where
  query : String
  success : Bool
  data : Option (List Row)
  summary : Option String
  error : Option String
  attempts : Nat
  row_count : Nat
deriving DecidableEq, Repr

/-- The zero-row summary text (services.py line 530). -/
def NO_RESULTS_SUMMARY : String :=
  "**No Results Found**\n\nThe query executed successfully but returned no data. This could mean:\n- No tests match the specified criteria\n- The execution number doesn't exist\n- The test name is misspelled"

/-- `OpenAIQueryGenerationService.generate_query_with_summary` (services.py
lines 431–550).  The audit-log calls are effect-only and not represented. -/
def generate_query_with_summary (env : GenEnv) (user_query : String)
    (execution_number : Option String) (max_retries : Option Nat) : QuerySummaryResult :=
  let en := execution_number.getD env.influx.default_execution_number
  let mr := max_retries.getD env.max_retries_cfg
  let query_result := generate_flux_query_only env user_query (some en) (some mr)
  if !query_result.success then
    ⟨query_result.query, false, Option.none, Option.none, query_result.error,
     query_result.attempts, 0⟩
  else
    let flux_query := query_result.query
    let exec_result := execute_flux_query env.influx flux_query (some en)
    if !exec_result.success then
      ⟨flux_query, false, Option.none, Option.none, exec_result.error,
       query_result.attempts, 0⟩
    else
      let data := exec_result.data.getD []
      let row_count := exec_result.row_count
      let summary :=
        if row_count > 0 then env.summarize user_query flux_query data row_count (some en)
        else NO_RESULTS_SUMMARY
      ⟨flux_query, true, some data, some summary, Option.none, query_result.attempts, row_count⟩

/-! ## `summary_service.py`: `generate_build_comparison_summary` -/

/-- The execution-order normalization run when both identifiers are supplied
(summary_service.py lines 655–665, repeated at lines 726–735): compare as
Python ints when both parse, else as strings, and swap when the first is the
larger. -/
def normalizeExecutionOrder (execution1 execution2 : String) : String × String :=
  match pyIntParse execution1, pyIntParse execution2 with
  | some x, some y => if x > y then (execution2, execution1) else (execution1, execution2)
  | _, _ =>
    if strGtB execution1 execution2 then (execution2, execution1)
    else (execution1, execution2)

/-- A Python exception escaping a function. -/
inductive PyError where
  | unboundLocal (name : String)
deriving DecidableEq, Repr

/-- The execution-number listing query (summary_service.py lines 670–680). -/
def execListQuery : String :=
  "\nfrom(bucket: \"testexecution\")\n  |> range(start: 1970-01-01T00:00:00Z)\n  |> filter(fn: (r) => r._measurement == \"testmethod\")\n  |> filter(fn: (r) => exists r.execution_number)\n  |> keep(columns: [\"execution_number\"])\n  |> group(columns: [\"execution_number\"])\n  |> distinct(column: \"execution_number\")\n  |> sort(columns: [\"execution_number\"], desc: true)\n  |> limit(n: 100)\n"

/-- The two-build comparison query (summary_service.py lines 738–760). -/
def buildComparisonQuery (e1 e2 : String) : String :=
  "\nbuild1 = from(bucket: \"testexecution\")\n  |> range(start: 1970-01-01T00:00:00Z)\n  |> filter(fn: (r) => r._measurement == \"testmethod\")\n  |> filter(fn: (r) => r.execution_number == \"" ++ e1 ++
  "\")\n  |> filter(fn: (r) => r._field == \"duration\" or r._field == \"failure_stack\")\n  |> pivot(rowKey: [\"testname\"], columnKey: [\"_field\"], valueColumn: \"_value\")\n  |> rename(columns: \x7bstatus: \"previous_status\"\x7d)\n\nbuild2 = from(bucket: \"testexecution\")\n  |> range(start: 1970-01-01T00:00:00Z)\n  |> filter(fn: (r) => r._measurement == \"testmethod\")\n  |> filter(fn: (r) => r.execution_number == \"" ++ e2 ++
  "\")\n  |> filter(fn: (r) => r._field == \"duration\" or r._field == \"failure_stack\")\n  |> pivot(rowKey: [\"testname\"], columnKey: [\"_field\"], valueColumn: \"_value\")\n  |> rename(columns: \x7bstatus: \"current_status\"\x7d)\n  |> rename(columns: \x7bfailure_stack: \"current_failure_stack\"\x7d)\n\njoin(tables: \x7bb1: build1, b2: build2\x7d, on: [\"testname\"])\n  |> filter(fn: (r) => r.previous_status == \"PASS\" and (r.current_status == \"FAIL\" or r.current_status == \"SKIP\"))\n  |> keep(columns: [\"testname\", \"previous_status\", \"current_status\", \"current_failure_stack\"])\n  |> group()\n"

/-- The result dictionary of `generate_build_comparison_summary`; the failure
dictionaries carry only `success`, `error` (and `summary = None`), so the
remaining fields default.  The markdown `summary` text (a rendering of the
other fields, lines 801–829) is not repeated here. -/
structure CompareSummaryResult where
  success : Bool
  error : Option String
  execution1 : Option String
  execution2 : Option String
  total_changed : Nat
  changed_tests : List Row
  status_changes : List (String × List String)
  failure_categories : List (String × List String)
deriving DecidableEq, Repr

/-- A failure dictionary `{success: False, error: e, summary: None}`. -/
def compareFailure (e : String) : CompareSummaryResult :=
  ⟨false, some e, Option.none, Option.none, 0, [], [], []⟩

/-- The `status_changes` skeleton (summary_service.py lines 776–783). -/
def initStatusChanges : List (String × List String) :=
  [("PASS→FAIL", []), ("PASS→SKIP", []), ("FAIL→PASS", []),
   ("SKIP→PASS", []), ("FAIL→SKIP", []), ("SKIP→FAIL", [])]

/-- Append to an existing key of the fixed-key dictionary (`if change_key in
status_changes`). -/
def addToKey (m : List (String × List String)) (k v : String) :
    List (String × List String) :=
  m.map (fun p => if p.1 == k then (p.1, p.2 ++ [v]) else p)

/-- Append under a key of a `defaultdict(list)`, creating it in insertion
order. -/
def addToDefaultDict (m : List (String × List String)) (k v : String) :
    List (String × List String) :=
  if m.any (fun p => p.1 == k) then addToKey m k v else m ++ [(k, [v])]

/-- The per-test loop over the changed tests (summary_service.py lines
785–798): classify the status transition and categorize the new failure. -/
def processChangedTests (tests : List Row) :
    List (String × List String) × List (String × List String) :=
  tests.foldl (fun acc test =>
    let testname := valToStr ((getVal test "testname").getD (.s "Unknown"))
    let previous_status := valToStr ((getVal test "previous_status").getD (.s ""))
    let current_status := valToStr ((getVal test "current_status").getD (.s ""))
    let failure_stack := (getVal test "current_failure_stack").getD (.s "")
    let change_key := previous_status ++ "→" ++ current_status
    let sc := addToKey acc.1 change_key testname
    let fc :=
      if current_status == "FAIL" && valTruthy failure_stack then
        (categorize_failure (valAsStr failure_stack)).foldl
          (fun m c => addToDefaultDict m c testname) acc.2
      else acc.2
    (sc, fc)) (initStatusChanges, [])

/-- The executions-list extraction (summary_service.py lines 698–707). -/
def extractExecutions (data : List Row) : List String :=
  data.foldl (fun acc record =>
    match firstTruthy [getVal record "execution_number", getVal record "_value",
                       getVal record "executionNumber"] with
    | some v =>
      let exec_str := String.mk (pyStrip (valToStr v).data)
      if exec_str ≠ "" ∧ exec_str ∉ acc then acc ++ [exec_str] else acc
    | Option.none => acc) []

/-- `SummaryService.generate_build_comparison_summary` (summary_service.py
lines 624–840).  The local `query` is assigned only inside the
`if execution1 is None or execution2 is None:` block (lines 668–680), yet
line 681 reads it unconditionally, so the both-identifiers-supplied path
raises `UnboundLocalError` — modelled by the `Except.error` branch.  The
"Sample data" suffix of the no-executions error (line 713) is elided. -/
def generate_build_comparison_summary (env : InfluxEnv)
    (execution1 execution2 : Option String) : Except PyError CompareSummaryResult :=
  let (e1, e2) :=
    match execution1, execution2 with
    | some a, some b =>
      let (a', b') := normalizeExecutionOrder a b
      (some a', some b')
    | a, b => (a, b)
  let queryLocal : Option String :=
    if e1.isNone || e2.isNone then some execListQuery else Option.none
  match queryLocal with
  | Option.none => .error (.unboundLocal "query")
  | some q =>
    let result := execute_flux_query env q Option.none
    if !result.success then
      .ok (compareFailure ("Failed to query execution numbers: " ++
        pyShow result.error))
    else if (result.data.getD []).isEmpty then
      .ok (compareFailure "No execution data found in database")
    else
      let executions := extractExecutions (result.data.getD [])
      if executions.isEmpty then
        .ok (compareFailure "No execution numbers found.")
      else
        let e2' := match e2 with | Option.none => executions.headD "" | some v => v
        let e1' := match e1 with | Option.none => executions.getLastD "" | some v => v
        let (f1, f2) := normalizeExecutionOrder e1' e2'
        let result2 := execute_flux_query env (buildComparisonQuery f1 f2) Option.none
        if !result2.success then
          .ok (compareFailure (result2.error.getD "Query execution failed"))
        else
          let changed_tests := result2.data.getD []
          let (status_changes, failure_categories) := processChangedTests changed_tests
          .ok ⟨true, Option.none, some f1, some f2, changed_tests.length, changed_tests,
               status_changes, failure_categories⟩

/-! ## `app.py`: the display-time deduplication block (lines 488–524)

The pandas pipeline over a DataFrame built from a list of row dictionaries:
columns are the union of keys in first-appearance order, a missing key is a
`NaN` cell (modelled by key absence), a column's dtype is numeric exactly when
no present value is a string. -/

/-- Values in first-appearance order, duplicates dropped. -/
def dedupFirstAux {α} [DecidableEq α] : List α → List α → List α
  | [], _ => []
  | x :: xs, seen =>
    if x ∈ seen then dedupFirstAux xs seen else x :: dedupFirstAux xs (x :: seen)

/-- `df.columns` of `pd.DataFrame(rows)`. -/
def dfColumns (rows : List Row) : List String :=
  dedupFirstAux (rows.map (fun r => r.map (·.1))).flatten []

/-- The `testname` column, one optional cell per row. -/
def tnameVals (rows : List Row) : List (Option Val) := rows.map (fun r => getVal r "testname")

/-- `series.duplicated().any()`: some cell value repeats (pandas counts two
`NaN`s as duplicates of each other). -/
def hasDupsB {α} [DecidableEq α] : List α → Bool
  | [] => false
  | x :: xs => decide (x ∈ xs) || hasDupsB xs

/-- `df[col].dtype` is one of the numeric dtypes: no present value of the
column is a string. -/
def colIsNumeric (rows : List Row) (c : String) : Bool :=
  rows.all (fun r => match getVal r c with | some (.s _) => false | _ => true)

/-- The rows of one `groupby("testname")` group, in original order. -/
def rowsForKey (rows : List Row) (key : Val) : List Row :=
  rows.filter (fun r => decide (getVal r "testname" = some key))

/-- The present (non-`NaN`) values of column `c` within one group. -/
def colValsForKey (rows : List Row) (key : Val) (c : String) : List Val :=
  (rowsForKey rows key).filterMap (fun r => getVal r c)

/-- One aggregated cell: `'max'` for a numeric column (skipping `NaN`),
`'first'` (first non-`NaN`) otherwise. -/
def aggColVal (rows : List Row) (key : Val) (c : String) : Option Val :=
  let vals := colValsForKey rows key c
  if colIsNumeric rows c then
    match vals.filterMap (fun v => match v with | .i n => some n | .s _ => Option.none) with
    | [] => Option.none
    | n :: ns => some (.i (ns.foldl max n))
  else vals.head?

/-- Ordering of group keys (`groupby` sorts them).  Within one type it is the
pandas order; the mixed-type case (which pandas refuses to sort) puts numbers
first. -/
def valLEb : Val → Val → Bool
  | .i a, .i b => a ≤ b
  | .s a, .s b => !(strGtB a b)
  | .i _, .s _ => true
  | .s _, .i _ => false

/-- Insert into a sorted list. -/
def insertVal (x : Val) : List Val → List Val
  | [] => [x]
  | y :: ys => if valLEb x y then x :: y :: ys else y :: insertVal x ys

/-- Insertion sort by `valLEb`. -/
def sortVals : List Val → List Val
  | [] => []
  | x :: xs => insertVal x (sortVals xs)

/-- The present `testname` cells, in row order (`groupby` drops `NaN` keys). -/
def presentTestnames (rows : List Row) : List Val :=
  rows.filterMap (fun r => getVal r "testname")

/-- The sorted distinct group keys of `groupby("testname")`. -/
def groupKeys (rows : List Row) : List Val :=
  sortVals (dedupFirstAux (presentTestnames rows) [])

/-- One row of `df.groupby("testname", as_index=False).agg(agg_dict)`. -/
def groupedRow (rows : List Row) (aggCols : List String) (key : Val) : Row :=
  ("testname", key) :: aggCols.filterMap (fun c => (aggColVal rows key c).map (fun v => (c, v)))

/-- `value_counts()[key]`: how many original rows carry this `testname`. -/
def countForKey (rows : List Row) (key : Val) : Nat := (rowsForKey rows key).length

/-- `df[c] = v` on one row: overwrite the cell or append the column. -/
def setCol : Row → String → Val → Row
  | [], c, v => [(c, v)]
  | (k, w) :: rest, c, v =>
    if k = c then (c, v) :: rest else (k, w) :: setCol rest c v

/-- `df["occurrence_count"] = df["testname"].map(counts)` on one row: `NaN`
(absent) when the row's `testname` is `NaN`. -/
def addOccurrence (rows0 : List Row) (r : Row) : Row :=
  match getVal r "testname" with
  | some v => setCol r "occurrence_count" (.i (countForKey rows0 v))
  | Option.none => r

/-- `df.drop_duplicates(subset=["testname"], keep='first')` (pandas treats
`NaN` keys as equal here, unlike `groupby`). -/
def dropDupByNameAux : List Row → List (Option Val) → List Row
  | [], _ => []
  | r :: rest, seen =>
    let t := getVal r "testname"
    if t ∈ seen then dropDupByNameAux rest seen else r :: dropDupByNameAux rest (t :: seen)

/-- The deduplication block of the results display (app.py lines 488–524):
when `testname` repeats, aggregate numeric columns by max and the rest by
first-seen, and add an `occurrence_count` column from the original
`value_counts`. -/
def aggregateDisplayRows (rows : List Row) : List Row :=
  let cols := dfColumns rows
  if !(cols.contains "testname") then rows
  else if !(hasDupsB (tnameVals rows)) then rows
  else
    let aggCols := cols.filter (fun c => c ≠ "testname")
    if aggCols.isEmpty then
      let dd := dropDupByNameAux rows []
      if dd.length < rows.length then dd.map (addOccurrence rows) else dd
    else
      let grouped := (groupKeys rows).map (fun key => groupedRow rows aggCols key)
      if grouped.length < rows.length then grouped.map (addOccurrence rows) else grouped

/-! ## Specification-side predicates and witnesses used by the theorems -/

/-- The comparison key equality `generate_build_comparison_summary` sorts by:
integer equality when both identifiers parse as Python ints, string equality
otherwise. -/
def execKeyEq (a b : String) : Bool :=
  match pyIntParse a, pyIntParse b with
  | some x, some y => decide (x = y)
  | _, _ => decide (a = b)

/-- "Smaller identifier" in the ordering contract's sense: numeric when both
parse, lexicographic otherwise. -/
def execKeyLt (a b : String) : Bool :=
  match pyIntParse a, pyIntParse b with
  | some x, some y => decide (x < y)
  | _, _ => charListLtB a.data b.data

/-- `kw` occurs in `s` case-insensitively (what `kw.lower() in s.lower()`
decides). -/
def caseInsensitiveSubstr (kw s : String) : Bool :=
  substrL (lowerL kw.data) (lowerL s.data)

/-- Category `c` matches text `s`: some keyword of `c`'s pattern entry occurs
case-insensitively in `s`. -/
def categoryHits (c : String) (s : String) : Prop :=
  ∃ e ∈ FAILURE_PATTERNS, e.1 = c ∧ ∃ kw ∈ e.2.1, caseInsensitiveSubstr kw s = true

/-- A collaborator environment whose generator always refuses. -/
def refusalEnvW : GenEnv :=
  { influx := ⟨true, fun _ => .error "store down", "1"⟩
  , chatCompletion := fun _ => .ok "ERROR: unsupported request"
  , summarize := fun _ _ _ _ _ => ""
  , max_retries_cfg := 3 }

/-- A collaborator environment whose store rejects every query. -/
def alwaysFailEnvW : GenEnv :=
  { influx := ⟨true, fun _ => .error "boom", "1"⟩
  , chatCompletion := fun _ => .ok "from(bucket)"
  , summarize := fun _ _ _ _ _ => ""
  , max_retries_cfg := 3 }

/-- A collaborator environment whose store returns zero rows. -/
def emptyOkEnvW : GenEnv :=
  { influx := ⟨true, fun _ => .ok [], "1"⟩
  , chatCompletion := fun _ => .ok "from(bucket)"
  , summarize := fun _ _ _ _ _ => "sum"
  , max_retries_cfg := 3 }

/-- The spec's end-to-end deduplication scenario, with the row shape the code
reads (`testname` is the identity field). -/
def dedupScenarioRows : List Row :=
  [[("testname", .s "t1"), ("status", .s "FAIL")],
   [("testname", .s "t1"), ("status", .s "FAIL"), ("duration", .i 5)],
   [("testname", .s "t2"), ("status", .s "PASS")]]

/-! ## Order lemmas for the execution-identifier comparison -/

theorem charListLtB_asymm (a : List Char) :
    ∀ b, charListLtB a b = true → charListLtB b a = false := by
  induction a with
  | nil =>
    intro b h
    cases b <;> simp [charListLtB] at h ⊢
  | cons x xs ih =>
    intro b h
    cases b with
    | nil => simp [charListLtB] at h
    | cons y ys =>
      by_cases h1 : x < y
      · have h2 : ¬ y < x := lt_asymm h1
        simp [charListLtB, h1, h2]
      · by_cases h2 : y < x
        · simp [charListLtB, h1, h2] at h
        · simp only [charListLtB, if_neg h1, if_neg h2] at h
          simp [charListLtB, h1, h2, ih ys h]

theorem charListLtB_conn (a : List Char) :
    ∀ b, charListLtB a b = false → charListLtB b a = false → a = b := by
  induction a with
  | nil =>
    intro b h1 _
    cases b with
    | nil => rfl
    | cons y ys => simp [charListLtB] at h1
  | cons x xs ih =>
    intro b h1 h2
    cases b with
    | nil => simp [charListLtB] at h2
    | cons y ys =>
      by_cases hxy : x < y
      · simp [charListLtB, hxy] at h1
      · by_cases hyx : y < x
        · simp [charListLtB, hyx] at h2
        · have hx : x = y := le_antisymm (not_lt.mp hyx) (not_lt.mp hxy)
          simp only [charListLtB, if_neg hxy, if_neg hyx] at h1 h2
          rw [hx, ih ys h1 h2]

/-! ## Claim theorems -/

/-- C1.  Classifier precedence: `detect_summary_request "about build 42"`
yields the build-summary intent with execution identifier `"42"` (in
particular it is not a script-summary intent with name `"build"`): the
build-summary patterns are checked first and the first match returns. -/
theorem classifier_precedence_about_build :
    detect_summary_request "about build 42" = (some "build_summary", SParam.str "42") := by
  decide

/-- C3 counterexample.  The previous/current normalization is position
dependent for `"05"` and `"5"`: both parse as the integer 5, so neither call
order swaps, and the resolved pairs differ. -/
theorem build_comparison_order_counterexample :
    normalizeExecutionOrder "05" "5" ≠ normalizeExecutionOrder "5" "05" := by
  decide

/-- C3 amended.  For identifiers that are not equal under the comparison the
code uses (equal ints when both parse as Python ints, equal strings
otherwise), `generate_build_comparison_summary`'s normalization resolves the
same (previous, current) pair in either argument order, the pair is the two
supplied identifiers, and previous is the numerically (both parse) or
lexicographically (otherwise) smaller one. -/
theorem build_comparison_order_normalization (a b : String)
    (h : execKeyEq a b = false) :
    normalizeExecutionOrder a b = normalizeExecutionOrder b a ∧
    (normalizeExecutionOrder a b = (a, b) ∨ normalizeExecutionOrder a b = (b, a)) ∧
    execKeyLt (normalizeExecutionOrder a b).1 (normalizeExecutionOrder a b).2 = true := by
  have stringCase :
      pyIntParse a = Option.none ∨ pyIntParse b = Option.none →
      a ≠ b →
      normalizeExecutionOrder a b = normalizeExecutionOrder b a ∧
      (normalizeExecutionOrder a b = (a, b) ∨ normalizeExecutionOrder a b = (b, a)) ∧
      execKeyLt (normalizeExecutionOrder a b).1 (normalizeExecutionOrder a b).2 = true := by
    intro hp hne
    by_cases hab : charListLtB a.data b.data = true
    · have hba : charListLtB b.data a.data = false := charListLtB_asymm _ _ hab
      have e1 : normalizeExecutionOrder a b = (a, b) := by
        rcases hp with hp | hp <;>
          cases hq : pyIntParse a <;> cases hr : pyIntParse b <;>
            simp_all [normalizeExecutionOrder, strGtB]
      have e2 : normalizeExecutionOrder b a = (a, b) := by
        rcases hp with hp | hp <;>
          cases hq : pyIntParse a <;> cases hr : pyIntParse b <;>
            simp_all [normalizeExecutionOrder, strGtB]
      refine ⟨by rw [e1, e2], Or.inl e1, ?_⟩
      rw [e1]
      rcases hp with hp | hp <;>
        cases hq : pyIntParse a <;> cases hr : pyIntParse b <;>
          simp_all [execKeyLt]
    · by_cases hba : charListLtB b.data a.data = true
      · have e1 : normalizeExecutionOrder a b = (b, a) := by
          rcases hp with hp | hp <;>
            cases hq : pyIntParse a <;> cases hr : pyIntParse b <;>
              simp_all [normalizeExecutionOrder, strGtB]
        have e2 : normalizeExecutionOrder b a = (b, a) := by
          rcases hp with hp | hp <;>
            cases hq : pyIntParse a <;> cases hr : pyIntParse b <;>
              simp_all [normalizeExecutionOrder, strGtB]
        refine ⟨by rw [e1, e2], Or.inr e1, ?_⟩
        rw [e1]
        rcases hp with hp | hp <;>
          cases hq : pyIntParse a <;> cases hr : pyIntParse b <;>
            simp_all [execKeyLt]
      · exfalso
        have hd : a.data = b.data :=
          charListLtB_conn a.data b.data (by simpa using hab) (by simpa using hba)
        apply hne
        cases a with
        | mk la =>
          cases b with
          | mk lb => exact congrArg String.mk (by simpa using hd)
  cases hpa : pyIntParse a with
  | none =>
    refine stringCase (Or.inl hpa) ?_
    have := h
    cases hpb : pyIntParse b <;> simp_all [execKeyEq]
  | some x =>
    cases hpb : pyIntParse b with
    | none =>
      refine stringCase (Or.inr hpb) ?_
      simp_all [execKeyEq]
    | some y =>
      have hxy : x ≠ y := by simpa [execKeyEq, hpa, hpb] using h
      rcases lt_trichotomy x y with hlt | heq | hgt
      · have hng : ¬ x > y := by omega
        have e1 : normalizeExecutionOrder a b = (a, b) := by
          simp [normalizeExecutionOrder, hpa, hpb, hng]
        have e2 : normalizeExecutionOrder b a = (a, b) := by
          simp [normalizeExecutionOrder, hpa, hpb, show y > x from hlt]
        refine ⟨by rw [e1, e2], Or.inl e1, ?_⟩
        rw [e1]
        simp [execKeyLt, hpa, hpb, hlt]
      · exact absurd heq hxy
      · have e1 : normalizeExecutionOrder a b = (b, a) := by
          simp [normalizeExecutionOrder, hpa, hpb, show x > y from hgt]
        have e2 : normalizeExecutionOrder b a = (b, a) := by
          simp [normalizeExecutionOrder, hpa, hpb, show ¬ y > x by omega]
        refine ⟨by rw [e1, e2], Or.inr e1, ?_⟩
        rw [e1]
        simp [execKeyLt, hpa, hpb, show y < x from hgt]

/-- C3 witness: numerically distinct identifiers supplied in either order
resolve to `("2", "10")` — numeric, not lexicographic, order. -/
theorem build_comparison_order_normalization_witness :
    normalizeExecutionOrder "10" "2" = normalizeExecutionOrder "2" "10" ∧
    (normalizeExecutionOrder "10" "2" = ("10", "2") ∨
      normalizeExecutionOrder "10" "2" = ("2", "10")) ∧
    execKeyLt (normalizeExecutionOrder "10" "2").1
      (normalizeExecutionOrder "10" "2").2 = true :=
  build_comparison_order_normalization "10" "2" (by decide)

/-- C4.  With both execution identifiers supplied, the local `query` of
`generate_build_comparison_summary` is never assigned but is read
unconditionally, so the call raises `UnboundLocalError` instead of returning a
structured result — for every store environment and every pair of supplied
identifiers. -/
theorem build_comparison_both_supplied_raises (env : InfluxEnv) (a b : String) :
    generate_build_comparison_summary env (some a) (some b) =
      .error (.unboundLocal "query") := rfl

/-- C10.  Classifier totality: every non-empty input has exactly one
`(summary_type, parameter)` outcome (the embedding is a total function), and
an input matched by no rule block yields the generic `(None, None)` outcome. -/
theorem classifier_totality (q : String) (hq : q ≠ "") :
    (∃! r : DetectOutcome, detect_summary_request q = r) ∧
    (noSummaryRuleMatches q = true →
      detect_summary_request q = (Option.none, SParam.none)) := by
  refine ⟨⟨detect_summary_request q, rfl, fun r hr => hr.symm⟩, fun h => ?_⟩
  simp only [noSummaryRuleMatches, Bool.and_eq_true, Option.isNone_iff_eq_none] at h
  obtain ⟨⟨⟨⟨⟨⟨⟨h1, h2⟩, h3⟩, h4⟩, h5⟩, h6⟩, h7⟩, h8⟩ := h
  simp only [detect_summary_request, h1, h2, h3, h4, h5, h6, h7, h8]
  rfl

/-- C10 witness: at the unmatched input `"hello world"`. -/
theorem classifier_totality_witness :
    (∃! r : DetectOutcome, detect_summary_request "hello world" = r) ∧
    (noSummaryRuleMatches "hello world" = true →
      detect_summary_request "hello world" = (Option.none, SParam.none)) :=
  classifier_totality "hello world" (by decide)

/-- `filterMap` of an if-some is `map` after `filter`. -/
theorem filterMap_ite_eq_map_filter {α β} (p : α → Bool) (g : α → β) (l : List α) :
    (l.filterMap fun e => if p e then some (g e) else Option.none) =
      (l.filter p).map g := by
  induction l with
  | nil => rfl
  | cons x xs ih =>
    by_cases h : p x <;> simp [List.filterMap_cons, List.filter_cons, h, ih]

/-- C8.  `categorize_failure` returns a non-empty duplicate-free list; a
category is a member exactly when one of its keywords occurs as a
case-insensitive substring of the text, with `["unknown"]` exactly for the
no-match, empty and non-string inputs. -/
theorem failure_categorization_spec :
    (∀ s : String, s.data ≠ [] →
      (categorize_failure (some s) ≠ [] ∧
       (categorize_failure (some s)).Nodup ∧
       (∀ c : String, c ∈ categorize_failure (some s) ↔
          (categoryHits c s ∨ (c = "unknown" ∧ ∀ c', ¬ categoryHits c' s))) ∧
       ((∀ c', ¬ categoryHits c' s) → categorize_failure (some s) = ["unknown"]))) ∧
    categorize_failure Option.none = ["unknown"] ∧
    categorize_failure (some "") = ["unknown"] := by
  refine ⟨?_, rfl, rfl⟩
  intro s hs
  have hne : s.data.isEmpty = false := by
    cases hd : s.data with
    | nil => exact absurd hd hs
    | cons c cs => rfl
  set m := (FAILURE_PATTERNS.filter fun e => anyKeywordHits e.2.1 (lowerL s.data)).map (·.1)
    with hm_def
  have hmem : ∀ c, c ∈ m ↔ categoryHits c s := by
    intro c
    simp only [hm_def, List.mem_map, List.mem_filter, categoryHits, anyKeywordHits,
      List.any_eq_true, caseInsensitiveSubstr]
    constructor
    · rintro ⟨e, ⟨heFP, hkw⟩, rfl⟩
      exact ⟨e, heFP, rfl, hkw⟩
    · rintro ⟨e, heFP, rfl, hkw⟩
      exact ⟨e, ⟨heFP, hkw⟩, rfl⟩
  have hnodup : m.Nodup := by
    have h1 : (FAILURE_PATTERNS.map (·.1)).Nodup := by decide
    have h2 : m.Sublist (FAILURE_PATTERNS.map (·.1)) :=
      (List.filter_sublist _).map _
    exact h1.sublist h2
  have hcatdef : categorize_failure (some s) = if m.isEmpty then ["unknown"] else m := by
    simp only [categorize_failure, hne, Bool.false_eq_true, if_false,
      filterMap_ite_eq_map_filter, hm_def]
  by_cases hm : m = []
  · have hval : categorize_failure (some s) = ["unknown"] := by
      rw [hcatdef, hm]; rfl
    refine ⟨by simp [hval], by simp [hval], ?_, fun _ => hval⟩
    intro c
    rw [hval]
    simp only [List.mem_singleton]
    constructor
    · rintro rfl
      refine Or.inr ⟨rfl, fun c' hc' => ?_⟩
      rw [← hmem c', hm] at hc'
      simp at hc'
    · rintro (hhit | ⟨rfl, _⟩)
      · exfalso
        rw [← hmem c, hm] at hhit
        simp at hhit
      · rfl
  · have hres : categorize_failure (some s) = m := by
      rw [hcatdef]
      cases hmm : m with
      | nil => exact absurd hmm hm
      | cons x xs => rfl
    obtain ⟨c0, hc0⟩ := List.exists_mem_of_ne_nil m hm
    refine ⟨by rw [hres]; exact hm, by rw [hres]; exact hnodup, ?_,
      fun hno => absurd ((hmem c0).mp hc0) (hno c0)⟩
    intro c
    rw [hres, hmem c]
    constructor
    · exact Or.inl
    · rintro (hh | ⟨rfl, hno⟩)
      · exact hh
      · exact absurd ((hmem c0).mp hc0) (hno c0)

/-- One retry-loop step on a failed execution with attempts to spare: append
the corrective context and go round again with the next attempt number. -/
theorem genLoop_step_execFail (env : GenEnv) (en : Option String)
    (mr fuel attempt : Nat) (msgs : List Msg) (c : String)
    (hgen : env.chatCompletion msgs = .ok c)
    (hnoref : pyStartsWith "ERROR:" (cleanQuery c) = false)
    (hfail : (execute_flux_query env.influx (cleanQuery c) en).success = false)
    (hlt : attempt < mr) :
    genLoop env en mr (fuel + 1) attempt msgs =
      genLoop env en mr fuel (attempt + 1)
        (msgs ++ [("assistant", cleanQuery c),
          ("user", error_feedback (execute_flux_query env.influx (cleanQuery c) en).error
            (cleanQuery c))]) := by
  simp [genLoop, hgen, hnoref, hfail, hlt]

/-- The retry loop's last step on a failed execution: surface that execution's
error with the current attempt count. -/
theorem genLoop_last_execFail (env : GenEnv) (en : Option String)
    (mr fuel attempt : Nat) (msgs : List Msg) (c : String)
    (hgen : env.chatCompletion msgs = .ok c)
    (hnoref : pyStartsWith "ERROR:" (cleanQuery c) = false)
    (hfail : (execute_flux_query env.influx (cleanQuery c) en).success = false)
    (hge : ¬ attempt < mr) :
    genLoop env en mr (fuel + 1) attempt msgs =
      ⟨cleanQuery c, false, (execute_flux_query env.influx (cleanQuery c) en).error,
        attempt⟩ := by
  simp [genLoop, hgen, hnoref, hfail, hge]

/-- C2.  Retry bound: when the generator always produces a (non-refusal) query
and the store rejects every query, `generate_flux_query_only` with
`max_retries = 3` makes exactly 3 attempts and returns a failure whose error is
the one the 3rd (last) execution attempt produced for the returned query. -/
theorem retry_bound_exhausted (env : GenEnv) (user_query : String) (en : Option String)
    (hgen : ∀ msgs, ∃ content, env.chatCompletion msgs = .ok content ∧
      pyStartsWith "ERROR:" (cleanQuery content) = false)
    (hexec : ∀ q eo, (execute_flux_query env.influx q eo).success = false) :
    (generate_flux_query_only env user_query en (some 3)).success = false ∧
    (generate_flux_query_only env user_query en (some 3)).attempts = 3 ∧
    (generate_flux_query_only env user_query en (some 3)).error =
      (execute_flux_query env.influx
        (generate_flux_query_only env user_query en (some 3)).query
        (some (en.getD env.influx.default_execution_number))).error := by
  set en' : Option String := some (en.getD env.influx.default_execution_number) with hen
  obtain ⟨c1, hc1, hn1⟩ := hgen (initialMessages user_query)
  set msgs1 := initialMessages user_query ++
    [("assistant", cleanQuery c1),
     ("user", error_feedback (execute_flux_query env.influx (cleanQuery c1) en').error
       (cleanQuery c1))] with hmsgs1
  obtain ⟨c2, hc2, hn2⟩ := hgen msgs1
  set msgs2 := msgs1 ++
    [("assistant", cleanQuery c2),
     ("user", error_feedback (execute_flux_query env.influx (cleanQuery c2) en').error
       (cleanQuery c2))] with hmsgs2
  obtain ⟨c3, hc3, hn3⟩ := hgen msgs2
  have e : generate_flux_query_only env user_query en (some 3) =
      ⟨cleanQuery c3, false,
        (execute_flux_query env.influx (cleanQuery c3) en').error, 3⟩ := by
    show genLoop env en' 3 3 1 (initialMessages user_query) = _
    calc genLoop env en' 3 (2 + 1) 1 (initialMessages user_query)
        = genLoop env en' 3 2 2 msgs1 :=
          genLoop_step_execFail env en' 3 2 1 _ c1 hc1 hn1 (hexec _ _) (by omega)
      _ = genLoop env en' 3 (1 + 1) 2 msgs1 := rfl
      _ = genLoop env en' 3 1 3 msgs2 :=
          genLoop_step_execFail env en' 3 1 2 _ c2 hc2 hn2 (hexec _ _) (by omega)
      _ = genLoop env en' 3 (0 + 1) 3 msgs2 := rfl
      _ = ⟨cleanQuery c3, false,
            (execute_flux_query env.influx (cleanQuery c3) en').error, 3⟩ :=
          genLoop_last_execFail env en' 3 0 3 msgs2 c3 hc3 hn3 (hexec _ _) (by omega)
  rw [e]
  exact ⟨rfl, rfl, rfl⟩

/-- C2 witness: a concrete always-failing store exhausts all 3 attempts. -/
theorem retry_bound_exhausted_witness :
    (generate_flux_query_only alwaysFailEnvW "list the failures" Option.none (some 3)).success = false ∧
    (generate_flux_query_only alwaysFailEnvW "list the failures" Option.none (some 3)).attempts = 3 ∧
    (generate_flux_query_only alwaysFailEnvW "list the failures" Option.none (some 3)).error =
      (execute_flux_query alwaysFailEnvW.influx
        (generate_flux_query_only alwaysFailEnvW "list the failures" Option.none (some 3)).query
        (some ((Option.none : Option String).getD alwaysFailEnvW.influx.default_execution_number))).error :=
  retry_bound_exhausted alwaysFailEnvW "list the failures" Option.none
    (fun _ => ⟨"from(bucket)", rfl, by decide⟩) (fun _ _ => rfl)

/-- C6.  A generation refusal (cleaned response starting with the `"ERROR:"`
sentinel) returns immediately on whatever attempt it occurs: failure, the
current attempt count, and the sentinel message itself as both query and
error; no execution and no further generation happens. -/
theorem generation_refusal_terminal (env : GenEnv) (en : Option String)
    (max_retries fuel attempt : Nat) (msgs : List Msg) (content : String)
    (hgen : env.chatCompletion msgs = .ok content)
    (href : pyStartsWith "ERROR:" (cleanQuery content) = true) :
    genLoop env en max_retries (fuel + 1) attempt msgs =
      ⟨cleanQuery content, false, some (cleanQuery content), attempt⟩ := by
  simp [genLoop, hgen, href]

/-- C6 witness: a concrete refusing generator terminates on attempt 1 with the
sentinel surfaced verbatim. -/
theorem generation_refusal_terminal_witness :
    genLoop refusalEnvW (some "1") 3 (2 + 1) 1 (initialMessages "do magic") =
      ⟨cleanQuery "ERROR: unsupported request", false,
        some (cleanQuery "ERROR: unsupported request"), 1⟩ :=
  generation_refusal_terminal refusalEnvW (some "1") 3 2 1
    (initialMessages "do magic") "ERROR: unsupported request" rfl (by decide)

/-- C7.  A successful execution ends the retry loop in success on that
attempt whatever the row count; in `generate_query_with_summary` a zero-row
success stays a success and gets the fixed no-results summary; and a concrete
store returning zero rows yields the full success dictionary on attempt 1. -/
theorem empty_result_is_success :
    (∀ (env : GenEnv) (en : Option String) (mr fuel attempt : Nat)
        (msgs : List Msg) (c : String),
      env.chatCompletion msgs = .ok c →
      pyStartsWith "ERROR:" (cleanQuery c) = false →
      (execute_flux_query env.influx (cleanQuery c) en).success = true →
      genLoop env en mr (fuel + 1) attempt msgs =
        ⟨cleanQuery c, true, Option.none, attempt⟩) ∧
    (∀ (env : GenEnv) (uq : String) (en : Option String) (mr : Option Nat),
      (generate_flux_query_only env uq
        (some (en.getD env.influx.default_execution_number))
        (some (mr.getD env.max_retries_cfg))).success = true →
      (execute_flux_query env.influx
        (generate_flux_query_only env uq
          (some (en.getD env.influx.default_execution_number))
          (some (mr.getD env.max_retries_cfg))).query
        (some (en.getD env.influx.default_execution_number))).success = true →
      ((generate_query_with_summary env uq en mr).success = true ∧
       (generate_query_with_summary env uq en mr).row_count =
        (execute_flux_query env.influx
          (generate_flux_query_only env uq
            (some (en.getD env.influx.default_execution_number))
            (some (mr.getD env.max_retries_cfg))).query
          (some (en.getD env.influx.default_execution_number))).row_count ∧
       ((execute_flux_query env.influx
          (generate_flux_query_only env uq
            (some (en.getD env.influx.default_execution_number))
            (some (mr.getD env.max_retries_cfg))).query
          (some (en.getD env.influx.default_execution_number))).row_count = 0 →
        (generate_query_with_summary env uq en mr).summary = some NO_RESULTS_SUMMARY))) ∧
    generate_query_with_summary emptyOkEnvW "show failed tests" Option.none (some 3) =
      ⟨"from(bucket)", true, some [], some NO_RESULTS_SUMMARY, Option.none, 1, 0⟩ := by
  refine ⟨?_, ?_, by rfl⟩
  · intro env en mr fuel attempt msgs c hgen hnoref hok
    simp [genLoop, hgen, hnoref, hok]
  · intro env uq en mr hq hx
    unfold generate_query_with_summary
    simp only [hq, Bool.not_true, Bool.false_eq_true, if_false, hx]
    refine ⟨trivial, trivial, fun hrc => ?_⟩
    simp [hrc]

/-! ## Captures are drawn from the searched text

`detect_summary_request` extracts parameters as regex captures; the lemmas
below show every capture of a search over `s` is a sublist of `s` (its
characters, in order and in their original case). -/

/-- A predicate on the value inside an `Option`; `none` counts as good. -/
def OptPred {α} (G : α → Prop) : Option α → Prop
  | Option.none => True
  | some a => G a

theorem optPred_orElse {α} {G : α → Prop} {x : Option α} {f : Unit → Option α}
    (hx : OptPred G x) (hf : OptPred G (f ())) : OptPred G (x.orElse f) := by
  cases x with
  | none => simpa [Option.orElse] using hf
  | some a => simpa [Option.orElse] using hx

theorem matchStar_sublist {α} (G : α → Prop) (s0 : List Char) (p : Char → Bool)
    (k : List Char → List (List Char) → Option α)
    (hk : ∀ rest caps, rest.Sublist s0 → (∀ c ∈ caps, c.Sublist s0) →
      OptPred G (k rest caps)) :
    ∀ s caps, s.Sublist s0 → (∀ c ∈ caps, c.Sublist s0) →
      OptPred G (matchStar p k s caps) := by
  intro s
  induction s with
  | nil =>
    intro caps _ hc
    exact hk [] caps (List.nil_sublist _) hc
  | cons c rest ih =>
    intro caps hs hc
    by_cases hp : p c
    · simp only [matchStar, hp, if_true]
      exact optPred_orElse
        (ih caps ((List.sublist_cons_self c rest).trans hs) hc)
        (hk _ caps hs hc)
    · simp only [matchStar, hp, if_false]
      exact hk _ caps hs hc

theorem matchRE_sublist {α} (G : α → Prop) (s0 : List Char) :
    ∀ (re : RE) (s : List Char) (k : List Char → List (List Char) → Option α)
      (caps : List (List Char)),
      s.Sublist s0 → (∀ c ∈ caps, c.Sublist s0) →
      (∀ rest caps2, rest.Sublist s0 → (∀ c ∈ caps2, c.Sublist s0) →
        OptPred G (k rest caps2)) →
      OptPred G (matchRE re s k caps) := by
  intro re
  induction re with
  | eps =>
    intro s k caps hs hc hk
    exact hk s caps hs hc
  | cls p =>
    intro s k caps hs hc hk
    cases s with
    | nil => trivial
    | cons c rest =>
      by_cases hp : p c
      · simp only [matchRE, hp, if_true]
        exact hk rest caps ((List.sublist_cons_self c rest).trans hs) hc
      · simp only [matchRE, hp, if_false]
        trivial
  | seq a b iha ihb =>
    intro s k caps hs hc hk
    exact iha s _ caps hs hc (fun rest caps2 hr hc2 => ihb rest k caps2 hr hc2 hk)
  | alt a b iha ihb =>
    intro s k caps hs hc hk
    exact optPred_orElse (iha s k caps hs hc hk) (ihb s k caps hs hc hk)
  | starCls p =>
    intro s k caps hs hc hk
    exact matchStar_sublist G s0 p k hk s caps hs hc
  | grp a iha =>
    intro s k caps hs hc hk
    apply iha s _ caps hs hc
    intro rest caps2 hr hc2
    refine hk rest (caps2 ++ [s.take (s.length - rest.length)]) hr ?_
    intro c hcmem
    rcases List.mem_append.mp hcmem with hmem | hmem
    · exact hc2 c hmem
    · have hceq : c = s.take (s.length - rest.length) := by simpa using hmem
      rw [hceq]
      exact (List.take_sublist _ _).trans hs

theorem searchHitAt_caps_sublist (re : RE) (s0 : List Char) (pos : Nat)
    (s : List Char) (hs : s.Sublist s0) :
    OptPred (fun h : Hit => ∀ c ∈ h.caps, c.Sublist s0) (searchHitAt re pos s) :=
  matchRE_sublist (fun h : Hit => ∀ c ∈ h.caps, c.Sublist s0) s0 re s
    (fun rest caps => some ⟨pos, pos + (s.length - rest.length), caps⟩) []
    hs (by simp) (fun r2 caps2 _ hc2 => by simpa [OptPred] using hc2)

theorem searchFrom_caps_sublist (re : RE) (s0 : List Char) :
    ∀ (s : List Char) (pos : Nat), s.Sublist s0 →
      OptPred (fun h : Hit => ∀ c ∈ h.caps, c.Sublist s0) (searchFrom re pos s) := by
  intro s
  induction s with
  | nil =>
    intro pos hs
    simpa [searchFrom] using searchHitAt_caps_sublist re s0 pos [] hs
  | cons c rest ih =>
    intro pos hs
    have hhit := searchHitAt_caps_sublist re s0 pos (c :: rest) hs
    simp only [searchFrom]
    cases hm : searchHitAt re pos (c :: rest) with
    | none => exact ih (pos + 1) ((List.sublist_cons_self c rest).trans hs)
    | some h =>
      rw [hm] at hhit
      exact hhit

theorem reSearch_caps_sublist (re : RE) (s : List Char) (h : Hit)
    (hs : reSearch re s = some h) : ∀ c ∈ h.caps, c.Sublist s := by
  have hall := searchFrom_caps_sublist re s s 0 (List.Sublist.refl s)
  rw [reSearch] at hs
  rw [hs] at hall
  simpa [OptPred] using hall

theorem dropTrailWs_sublist (l : List Char) : (dropTrailWs l).Sublist l := by
  induction l with
  | nil => simp [dropTrailWs]
  | cons c rest ih =>
    simp only [dropTrailWs]
    by_cases h : (dropTrailWs rest).isEmpty && wsC c
    · simp [h, List.nil_sublist]
    · simp only [h, if_false]
      exact ih.cons₂ c

theorem pyStrip_sublist (l : List Char) : (pyStrip l).Sublist l :=
  (dropTrailWs_sublist _).trans (List.dropWhile_sublist _)

/-- The head capture (or `[]`) of a hit of a search over `s` is a sublist of
`s`. -/
theorem caps_headD_sublist (re : RE) (s : List Char) (h : Hit)
    (hs : reSearch re s = some h) : (h.caps.headD []).Sublist s := by
  cases hc : h.caps with
  | nil => simp [List.nil_sublist]
  | cons c cs =>
    have := reSearch_caps_sublist re s h hs c (by rw [hc]; exact List.mem_cons_self c cs)
    simpa [hc] using this

/-- `firstM` over `Option` returns an answer of one of the list's elements. -/
theorem firstM_eq_some {α β} (f : α → Option β) :
    ∀ (l : List α) (b : β), l.firstM f = some b → ∃ a ∈ l, f a = some b := by
  intro l
  induction l with
  | nil => intro b h; simp [List.firstM] at h
  | cons x xs ih =>
    intro b h
    cases hx : f x with
    | some v =>
      refine ⟨x, List.mem_cons_self x xs, ?_⟩
      rw [hx]
      simpa [List.firstM, hx, Alternative.orElse, Option.orElse] using h
    | none =>
      have h2 : xs.firstM f = some b := by
        simpa [List.firstM, hx, Alternative.orElse, Option.orElse] using h
      obtain ⟨a, ha, hfa⟩ := ih b h2
      exact ⟨a, List.mem_cons_of_mem x ha, hfa⟩

/-- C5 counterexample.  `"explain MyTest"` goes through an explicit-keyword
script path and comes back lowercased: the extracted name is `"mytest"`, not
the original-case `"MyTest"`. -/
theorem case_preservation_counterexample :
    detect_summary_request "explain MyTest" =
      (some "script_summary", SParam.str "mytest") ∧
    ("mytest" : String) ≠ "MyTest" := by
  decide

/-- C5 amended.  The explicit-keyword script paths (`about/analyze
script|test X`, `tell me about X`, `give me about X`, `what about X`,
`explain X`) extract the name from the LOWERCASED query (so any returned name
is a sublist of the lowered text, with the original case folded away); only
the "summary about X" re-extraction (and likewise the residual "about X"
path) draws the name from the original query, preserving its case. -/
theorem script_name_case_handling :
    (∀ (ql : List Char) (r : DetectOutcome), stageScript ql = some r →
      ∃ n : List Char, r = (some "script_summary", SParam.str (String.mk n)) ∧
        n.Sublist ql) ∧
    (∀ (q n : List Char), summaryAboutFromOriginal q = some n → n.Sublist q) := by
  constructor
  · intro ql r hr
    unfold stageScript at hr
    cases hfm : script_patterns.firstM (fun re => reSearch re ql) with
    | none => rw [hfm] at hr; simp at hr
    | some h =>
      rw [hfm] at hr
      simp only [Option.map_some', Option.some.injEq] at hr
      obtain ⟨re, _, hre⟩ := firstM_eq_some _ _ _ hfm
      exact ⟨h.caps.headD [], hr.symm, caps_headD_sublist re ql h hre⟩
  · intro q n hn
    unfold summaryAboutFromOriginal at hn
    cases hsr : reSearch summaryAboutPatI q with
    | none => rw [hsr] at hn; simp at hn
    | some h =>
      rw [hsr] at hn
      simp only [Option.map_some', Option.some.injEq] at hn
      rw [← hn]
      exact (pyStrip_sublist _).trans (caps_headD_sublist _ q h hsr)

/-! ## Lemmas about the deduplication pipeline -/

theorem mem_dedupFirstAux {α} [DecidableEq α] (l : List α) :
    ∀ (seen : List α) (x : α), x ∈ dedupFirstAux l seen ↔ (x ∈ l ∧ x ∉ seen) := by
  induction l with
  | nil => intro seen x; simp [dedupFirstAux]
  | cons y ys ih =>
    intro seen x
    by_cases hy : y ∈ seen
    · rw [dedupFirstAux, if_pos hy, ih]
      simp only [List.mem_cons]
      constructor
      · rintro ⟨hx, hns⟩
        exact ⟨Or.inr hx, hns⟩
      · rintro ⟨rfl | hx, hns⟩
        · exact absurd hy hns
        · exact ⟨hx, hns⟩
    · rw [dedupFirstAux, if_neg hy]
      simp only [List.mem_cons, ih, List.mem_cons]
      constructor
      · rintro (rfl | ⟨hx, hns⟩)
        · exact ⟨Or.inl rfl, hy⟩
        · exact ⟨Or.inr hx, fun hc => hns (Or.inr hc)⟩
      · rintro ⟨rfl | hx, hns⟩
        · exact Or.inl rfl
        · by_cases hxy : x = y
          · exact Or.inl hxy
          · exact Or.inr ⟨hx, fun hc => (hc.elim hxy hns)⟩

theorem nodup_dedupFirstAux {α} [DecidableEq α] (l : List α) :
    ∀ seen : List α, (dedupFirstAux l seen).Nodup := by
  induction l with
  | nil => intro seen; simp [dedupFirstAux]
  | cons y ys ih =>
    intro seen
    by_cases hy : y ∈ seen
    · rw [dedupFirstAux, if_pos hy]; exact ih seen
    · rw [dedupFirstAux, if_neg hy]
      refine List.Nodup.cons ?_ (ih (y :: seen))
      intro hc
      exact ((mem_dedupFirstAux ys (y :: seen) y).mp hc).2 (List.mem_cons_self y seen)

theorem dedupFirstAux_length_le {α} [DecidableEq α] (l : List α) :
    ∀ seen : List α, (dedupFirstAux l seen).length ≤ l.length := by
  induction l with
  | nil => intro seen; simp [dedupFirstAux]
  | cons y ys ih =>
    intro seen
    by_cases hy : y ∈ seen
    · rw [dedupFirstAux, if_pos hy]
      exact (ih seen).trans (Nat.le_succ _)
    · rw [dedupFirstAux, if_neg hy]
      simpa using ih (y :: seen)

theorem dedupFirstAux_length_lt_of_mem_seen {α} [DecidableEq α] (l : List α) :
    ∀ (seen : List α) (x : α), x ∈ l → x ∈ seen →
      (dedupFirstAux l seen).length < l.length := by
  induction l with
  | nil => intro seen x hx; simp at hx
  | cons y ys ih =>
    intro seen x hx hseen
    by_cases hy : y ∈ seen
    · rw [dedupFirstAux, if_pos hy]
      have := dedupFirstAux_length_le ys seen
      simp only [List.length_cons]
      omega
    · rw [dedupFirstAux, if_neg hy]
      rcases List.mem_cons.mp hx with rfl | hxys
      · exact absurd hseen hy
      · have := ih (y :: seen) x hxys (List.mem_cons_of_mem y hseen)
        simpa using this

theorem dedupFirstAux_length_lt_of_dups {α} [DecidableEq α] (l : List α)
    (hd : hasDupsB l = true) :
    ∀ seen : List α, (dedupFirstAux l seen).length < l.length := by
  induction l with
  | nil => simp [hasDupsB] at hd
  | cons y ys ih =>
    intro seen
    rw [hasDupsB, Bool.or_eq_true, decide_eq_true_iff] at hd
    by_cases hy : y ∈ seen
    · rw [dedupFirstAux, if_pos hy]
      have := dedupFirstAux_length_le ys seen
      simp only [List.length_cons]
      omega
    · rw [dedupFirstAux, if_neg hy]
      rcases hd with hmem | hdups
      · have := dedupFirstAux_length_lt_of_mem_seen ys (y :: seen) y hmem
          (List.mem_cons_self y seen)
        simpa using this
      · simpa using ih hdups (y :: seen)

theorem hasDupsB_map_some {α} [DecidableEq α] (l : List α) :
    hasDupsB (l.map some) = hasDupsB l := by
  induction l with
  | nil => rfl
  | cons y ys ih =>
    simp only [List.map_cons, hasDupsB, ih]
    congr 1
    by_cases hy : y ∈ ys
    · simp [hy, List.mem_map]
    · simp [hy, List.mem_map]

theorem mem_insertVal (x y : Val) : ∀ l : List Val, y ∈ insertVal x l ↔ y = x ∨ y ∈ l := by
  intro l
  induction l with
  | nil => simp [insertVal]
  | cons z zs ih =>
    by_cases hle : valLEb x z
    · simp [insertVal, hle, List.mem_cons]
    · simp only [insertVal, hle, Bool.false_eq_true, if_false, List.mem_cons, ih]
      tauto

theorem mem_sortVals (y : Val) : ∀ l : List Val, y ∈ sortVals l ↔ y ∈ l := by
  intro l
  induction l with
  | nil => simp [sortVals]
  | cons z zs ih => simp [sortVals, mem_insertVal, ih, List.mem_cons]

theorem length_insertVal (x : Val) : ∀ l : List Val, (insertVal x l).length = l.length + 1 := by
  intro l
  induction l with
  | nil => rfl
  | cons z zs ih =>
    by_cases hle : valLEb x z
    · simp [insertVal, hle]
    · simp [insertVal, hle, ih]

theorem length_sortVals : ∀ l : List Val, (sortVals l).length = l.length := by
  intro l
  induction l with
  | nil => rfl
  | cons z zs ih => simp [sortVals, length_insertVal, ih]

theorem getVal_setCol_same (c : String) (v : Val) :
    ∀ r : Row, getVal (setCol r c v) c = some v := by
  intro r
  induction r with
  | nil => simp [setCol, getVal, List.find?]
  | cons p rest ih =>
    obtain ⟨k, w⟩ := p
    by_cases hk : k = c
    · simp [setCol, hk, getVal, List.find?]
    · simp only [setCol, hk, if_false]
      simpa [getVal, List.find?, hk] using ih

theorem getVal_setCol_ne (c c' : String) (v : Val) (hne : c' ≠ c) :
    ∀ r : Row, getVal (setCol r c v) c' = getVal r c' := by
  intro r
  induction r with
  | nil => simp [setCol, getVal, List.find?, Ne.symm hne]
  | cons p rest ih =>
    obtain ⟨k, w⟩ := p
    by_cases hk : k = c
    · subst hk
      simp [setCol, getVal, List.find?, Ne.symm hne]
    · by_cases hk' : k = c'
      · subst hk'
        simp [setCol, hk, getVal, List.find?]
      · simp only [setCol, hk, if_false]
        simpa [getVal, List.find?, hk'] using ih

theorem getVal_filterMap_of_not_mem (f : String → Option Val) :
    ∀ (l : List String) (c : String), c ∉ l →
      getVal (l.filterMap (fun c' => (f c').map (fun v => (c', v)))) c = Option.none := by
  intro l
  induction l with
  | nil => intro c _; simp [getVal, List.find?]
  | cons y ys ih =>
    intro c hc
    have hcy : c ≠ y := fun h => hc (h ▸ List.mem_cons_self y ys)
    have hcys : c ∉ ys := fun h => hc (List.mem_cons_of_mem y h)
    cases hf : f y with
    | none => simpa [List.filterMap_cons, hf] using ih c hcys
    | some v =>
      simp only [List.filterMap_cons, hf, Option.map_some']
      simpa [getVal, List.find?, Ne.symm hcy] using ih c hcys

theorem getVal_filterMap_assoc (f : String → Option Val) :
    ∀ (l : List String), l.Nodup → ∀ c ∈ l,
      getVal (l.filterMap (fun c' => (f c').map (fun v => (c', v)))) c = f c := by
  intro l
  induction l with
  | nil => intro _ c hc; simp at hc
  | cons y ys ih =>
    intro hnd c hc
    have hnd' : ys.Nodup := hnd.of_cons
    cases hf : f y with
    | none =>
      rcases List.mem_cons.mp hc with rfl | hcys
      · have hcnot : c ∉ ys := (List.nodup_cons.mp hnd).1
        simp only [List.filterMap_cons, hf, Option.map_none']
        rw [getVal_filterMap_of_not_mem f ys c hcnot]
      · simpa [List.filterMap_cons, hf] using ih hnd' c hcys
    | some v =>
      rcases List.mem_cons.mp hc with rfl | hcys
      · simp [List.filterMap_cons, hf, getVal, List.find?]
      · have hcy : c ≠ y := fun h => (List.nodup_cons.mp hnd).1 (h ▸ hcys)
        simp only [List.filterMap_cons, hf, Option.map_some']
        simpa [getVal, List.find?, Ne.symm hcy] using ih hnd' c hcys

theorem tnameVals_eq_map_some :
    ∀ rows : List Row, (∀ r ∈ rows, (getVal r "testname").isSome = true) →
      tnameVals rows = (presentTestnames rows).map some := by
  intro rows
  induction rows with
  | nil => intro _; rfl
  | cons r rest ih =>
    intro h2
    obtain ⟨v, hv⟩ := Option.isSome_iff_exists.mp (h2 r (List.mem_cons_self r rest))
    have htail := ih (fun r' hr' => h2 r' (List.mem_cons_of_mem r hr'))
    simp [tnameVals, presentTestnames, List.filterMap_cons, hv] at htail ⊢
    exact htail

/-- C9.  Deduplication field resolution: on a row list with a repeated test
name (every row carrying the identity field, no pre-existing
`occurrence_count` column, and at least one non-identity column), the display
aggregation produces, for each present test name, an output row whose
`testname` is that name, whose `occurrence_count` is the number of original
rows sharing it, and whose every other column resolves to the numeric maximum
(numeric dtype) or the first-seen value (otherwise); and the spec's concrete
scenario aggregates to two entities with `t1` at occurrence count 2 and
resolved duration 5. -/
theorem dedup_field_resolution :
    (∀ rows : List Row,
      hasDupsB (tnameVals rows) = true →
      (∀ r ∈ rows, (getVal r "testname").isSome = true) →
      "occurrence_count" ∉ dfColumns rows →
      (dfColumns rows).filter (fun c => c ≠ "testname") ≠ [] →
      ∀ v : Val, some v ∈ tnameVals rows →
        ∃ out ∈ aggregateDisplayRows rows,
          getVal out "testname" = some v ∧
          getVal out "occurrence_count" = some (.i (countForKey rows v)) ∧
          ∀ c ∈ dfColumns rows, c ≠ "testname" →
            getVal out c = aggColVal rows v c) ∧
    aggregateDisplayRows dedupScenarioRows =
      [[("testname", .s "t1"), ("status", .s "FAIL"), ("duration", .i 5),
        ("occurrence_count", .i 2)],
       [("testname", .s "t2"), ("status", .s "PASS"), ("occurrence_count", .i 1)]] := by
  refine ⟨?_, by rfl⟩
  intro rows h1 h2 h3 h4 v hv
  obtain ⟨r0, hr0mem, hr0⟩ : ∃ r ∈ rows, getVal r "testname" = some v := by
    rcases List.mem_map.mp hv with ⟨r, hr, hget⟩
    exact ⟨r, hr, hget⟩
  have hvpres : v ∈ presentTestnames rows := List.mem_filterMap.mpr ⟨r0, hr0mem, hr0⟩
  have htn : "testname" ∈ dfColumns rows := by
    obtain ⟨p, hfind, hp2⟩ := Option.map_eq_some'.mp hr0
    have hpmem : p ∈ r0 := List.mem_of_find?_eq_some hfind
    have hpk : p.1 = "testname" := by simpa using List.find?_some hfind
    apply (mem_dedupFirstAux _ _ _).mpr
    refine ⟨List.mem_flatten.mpr ⟨r0.map (·.1), List.mem_map.mpr ⟨r0, hr0mem, rfl⟩,
      hpk ▸ List.mem_map.mpr ⟨p, hpmem, rfl⟩⟩, List.not_mem_nil _⟩
  have hnodupAgg : ((dfColumns rows).filter (fun c => c ≠ "testname")).Nodup :=
    (nodup_dedupFirstAux _ _).filter _
  have hcontains : (dfColumns rows).contains "testname" = true := by
    simpa [List.contains] using List.elem_iff.mpr htn
  have hdupPres : hasDupsB (presentTestnames rows) = true := by
    have hh := h1
    rw [tnameVals_eq_map_some rows h2, hasDupsB_map_some] at hh
    exact hh
  have hlenPres : (presentTestnames rows).length = rows.length := by
    have hh := congrArg List.length (tnameVals_eq_map_some rows h2)
    simp only [tnameVals, List.length_map] at hh
    exact hh.symm
  have hlt : ((groupKeys rows).map
      (groupedRow rows ((dfColumns rows).filter (fun c => c ≠ "testname")))).length <
      rows.length := by
    rw [List.length_map]
    unfold groupKeys
    rw [length_sortVals]
    calc (dedupFirstAux (presentTestnames rows) []).length
        < (presentTestnames rows).length :=
          dedupFirstAux_length_lt_of_dups _ hdupPres []
      _ = rows.length := hlenPres
  have hemp : ((dfColumns rows).filter (fun c => c ≠ "testname")).isEmpty = false := by
    cases hfe : (dfColumns rows).filter (fun c => c ≠ "testname") with
    | nil => exact absurd hfe h4
    | cons a l => rfl
  have hb : aggregateDisplayRows rows =
      ((groupKeys rows).map
        (groupedRow rows ((dfColumns rows).filter (fun c => c ≠ "testname")))).map
        (addOccurrence rows) := by
    simp only [aggregateDisplayRows, hcontains, h1, hemp, hlt, Bool.not_true,
      Bool.false_eq_true, if_false, if_true]
  have hvkeys : v ∈ groupKeys rows := by
    unfold groupKeys
    rw [mem_sortVals]
    exact (mem_dedupFirstAux _ _ _).mpr ⟨hvpres, List.not_mem_nil _⟩
  have hgr_tn : getVal
      (groupedRow rows ((dfColumns rows).filter (fun c => c ≠ "testname")) v)
      "testname" = some v := by
    simp [groupedRow, getVal, List.find?]
  have hocc : addOccurrence rows
      (groupedRow rows ((dfColumns rows).filter (fun c => c ≠ "testname")) v) =
      setCol (groupedRow rows ((dfColumns rows).filter (fun c => c ≠ "testname")) v)
        "occurrence_count" (.i (countForKey rows v)) := by
    unfold addOccurrence
    rw [hgr_tn]
  rw [hb]
  refine ⟨addOccurrence rows
      (groupedRow rows ((dfColumns rows).filter (fun c => c ≠ "testname")) v),
    List.mem_map.mpr ⟨groupedRow rows _ v, List.mem_map.mpr ⟨v, hvkeys, rfl⟩, rfl⟩,
    ?_, ?_, ?_⟩
  · rw [hocc, getVal_setCol_ne _ _ _ (by decide), hgr_tn]
  · rw [hocc, getVal_setCol_same]
  · intro c hcmem hcne
    have hcocc : c ≠ "occurrence_count" := fun hc => h3 (hc ▸ hcmem)
    rw [hocc, getVal_setCol_ne _ _ _ hcocc]
    have hcagg : c ∈ (dfColumns rows).filter (fun c => c ≠ "testname") :=
      List.mem_filter.mpr ⟨hcmem, by simpa using hcne⟩
    have hskip : getVal
        (groupedRow rows ((dfColumns rows).filter (fun c => c ≠ "testname")) v) c =
        getVal (((dfColumns rows).filter (fun c => c ≠ "testname")).filterMap
          (fun c' => (aggColVal rows v c').map (fun w => (c', w)))) c := by
      simp [groupedRow, getVal, List.find?, Ne.symm hcne]
    rw [hskip, getVal_filterMap_assoc (aggColVal rows v) _ hnodupAgg c hcagg]

end TestRunSummary
